import Mathlib

/-!
A shallow embedding of the core of the kilo text editor (main.go) in Lean 4,
together with theorems checking the documented behavior of its row rendering,
cursor/viewport logic, key decoding, search, save and quit handling.

Modeling conventions:
* Go `int` values become `Int`; quantities that the source keeps non-negative
  by construction (render indices, counts) become `Nat`.
* Go strings and `[]rune` become `List Char`.  All inputs considered in the
  theorems are ASCII, where Go's byte indices and rune indices agree.
* A Go runtime panic (out-of-range index, `slices.Delete` bounds violation,
  an explicit `panic(...)` call) is modeled by returning `none` from an
  `Option`-valued function: `none` means the process aborts.
-/

set_option autoImplicit false

namespace Kilo

/-! ### Constants (Defines section of main.go) -/

def KILO_TAB_STOP : Nat := 8

def KILO_QUIT_TIMES : Int := 3

def BACKSPACE : Int := 127

def ARROW_LEFT : Int := 1001

def ARROW_RIGHT : Int := 1002

def ARROW_UP : Int := 1003

def ARROW_DOWN : Int := 1004

def DEL_KEY : Int := 1005

def HOME_KEY : Int := 1006

def END_KEY : Int := 1007

def PAGE_UP : Int := 1008

def PAGE_DOWN : Int := 1009

def HL_NORMAL : Nat := 0

def HL_NUMBER : Nat := 1

def HL_MATCH : Nat := 2

/-- The escape byte, `'\x1b'` = 27 in the source. -/
def ESC : Int := 27

/-- The escape byte as a character. -/
def ESCc : Char := Char.ofNat 27

/-- The NUL rune `'\u0000'`, which the read loop treats as "no input" and
which `editorUpdateRow` uses as the terminator filling the render array. -/
def NULc : Char := Char.ofNat 0

/-- `CTRL_KEY` masks a character down to its control-combination code
(`int(k) & 0x1f` in the source). -/
def CTRL_KEY (k : Char) : Int := Int.ofNat (k.toNat &&& 0x1f)

/-- The `MIN` helper from main.go. -/
def MIN (a b : Int) : Int := if a < b then a else b

/-- The `MAX` helper from main.go. -/
def MAX (a b : Int) : Int := if a > b then a else b

/-! ### Rows (Data section of main.go) -/

/-- A row of text in the editor: the literal `content`, the tab-expanded
`render`, and one highlight tag per render position. -/
structure editorRow where
  content : List Char
  render : List Char
  highlights : List Nat
deriving DecidableEq, Repr

/-- A zero-valued row, used as the out-of-range default when modeling Go
slice indexing (the theorems only index in range). -/
def emptyRow : editorRow := { content := [], render := [], highlights := [] }

/-! ### Row operations: content/render coordinate maps -/

/-- One step of the render-position computation shared by `editorRowCxToRx`,
`editorRowRxToCx` and the render loop: a tab advances
`rx += (KILO_TAB_STOP - 1) - (rx % KILO_TAB_STOP)` and then `rx++`,
any other character advances `rx++`. -/
def nextRx (rx : Nat) (c : Char) : Nat :=
  if c = '\t' then rx + ((KILO_TAB_STOP - 1) - rx % KILO_TAB_STOP) + 1 else rx + 1

/-- `editorRowCxToRx` from main.go: walk `row.content[:cx]` accumulating the
render position.  Takes the row's `content`. -/
def editorRowCxToRx (content : List Char) (cx : Nat) : Nat :=
  (content.take cx).foldl nextRx 0

/-- The scanning loop of `editorRowRxToCx`: walk the whole content keeping a
running render position `currentRx`; return the current `cx` as soon as the
running position passes `rx`. -/
def rxToCxLoop (rx : Nat) : List Char → Nat → Nat → Nat
  | [], cx, _ => cx
  | c :: rest, cx, currentRx =>
    let currentRx := nextRx currentRx c
    if rx < currentRx then cx else rxToCxLoop rx rest (cx + 1) currentRx

/-- `editorRowRxToCx` from main.go.  Takes the row's `content`. -/
def editorRowRxToCx (content : List Char) (rx : Nat) : Nat :=
  rxToCxLoop rx content 0 0

/-! ### Row rendering -/

/-- The copy loop of `editorUpdateRow`: append each character to the
accumulator, expanding a tab into one space followed by spaces until the
render index is a multiple of `KILO_TAB_STOP`. -/
def renderLoop : List Char → List Char → List Char
  | [], acc => acc
  | c :: rest, acc =>
    if c = '\t' then
      renderLoop rest (acc ++ List.replicate (KILO_TAB_STOP - acc.length % KILO_TAB_STOP) ' ')
    else
      renderLoop rest (acc ++ [c])

/-- The tab-counting loop at the top of `editorUpdateRow`. -/
def countTabs (content : List Char) : Nat :=
  (content.filter (fun c => c = '\t')).length

/-- `editorUpdateSyntax` from main.go: one tag per render position, `HL_NUMBER`
for a decimal digit (`unicode.IsDigit`, restricted here to ASCII) and
`HL_NORMAL` otherwise. -/
def editorUpdateSyntax (row : editorRow) : editorRow :=
  { row with highlights := row.render.map (fun c => if c.isDigit then HL_NUMBER else HL_NORMAL) }

/-- `editorUpdateRow` from main.go.  The render slice is allocated with
`make([]rune, len(content) + tabs*(KILO_TAB_STOP-1) + 1)` and never truncated:
after the copy loop writes the expansion and the explicit `'\x00'` terminator,
the remaining slots keep their zero value, so the render is the tab expansion
padded with NUL runes up to the allocated length. -/
def editorUpdateRow (row : editorRow) : editorRow :=
  let allocLen := row.content.length + countTabs row.content * (KILO_TAB_STOP - 1) + 1
  let expanded := renderLoop row.content []
  let render := expanded ++ List.replicate (allocLen - expanded.length) NULc
  editorUpdateSyntax { row with render := render }

/-- Build a row the way `editorInsertRow` builds one at the end of the buffer:
fresh content, then a full `editorUpdateRow`. -/
def mkRow (s : List Char) : editorRow :=
  editorUpdateRow { content := s, render := [], highlights := [] }

/-- Decide whether render position `rx` falls strictly inside the expansion
span of some tab of `content`; the span of the character at content index `i`
is `[cxToRx i, cxToRx (i+1))`. -/
def insideTabSpanB (content : List Char) (rx : Nat) : Bool :=
  (List.range content.length).any (fun i =>
    content.getD i ' ' == '\t'
      && decide (editorRowCxToRx content i < rx)
      && decide (rx < editorRowCxToRx content (i + 1)))

/-! ### Lemmas about the coordinate maps -/

theorem nextRx_gt (rx : Nat) (c : Char) : rx < nextRx rx c := by
  unfold nextRx; split <;> omega

theorem foldl_nextRx_le (l : List Char) (r : Nat) : r ≤ l.foldl nextRx r := by
  induction l generalizing r with
  | nil => exact Nat.le_refl r
  | cons c t ih =>
    calc r ≤ nextRx r c := Nat.le_of_lt (nextRx_gt r c)
    _ ≤ (c :: t).foldl nextRx r := by simpa using ih (nextRx r c)

theorem rxToCxLoop_foldl (l : List Char) (k r cx : Nat) (h : cx ≤ l.length) :
    rxToCxLoop (List.foldl nextRx r (l.take cx)) l k r = k + cx := by
  induction l generalizing k r cx with
  | nil =>
    have hcx : cx = 0 := Nat.le_zero.mp h
    subst hcx
    rfl
  | cons c t ih =>
    cases cx with
    | zero =>
      show rxToCxLoop r (c :: t) k r = k
      unfold rxToCxLoop
      simp [nextRx_gt r c]
    | succ cx =>
      have htake : (c :: t).take (cx + 1) = c :: t.take cx := rfl
      rw [htake]
      have hfold : List.foldl nextRx r (c :: t.take cx)
          = List.foldl nextRx (nextRx r c) (t.take cx) := rfl
      rw [hfold]
      have hge : nextRx r c ≤ List.foldl nextRx (nextRx r c) (t.take cx) :=
        foldl_nextRx_le (t.take cx) (nextRx r c)
      unfold rxToCxLoop
      have hnotlt : ¬ (List.foldl nextRx (nextRx r c) (t.take cx) < nextRx r c) :=
        Nat.not_lt.mpr hge
      simp only [hnotlt, if_neg, ite_false]
      have := ih (k + 1) (nextRx r c) cx (Nat.le_of_succ_le_succ h)
      omega

/-- Claim C9 (confirmed): for every row content and every `cx ≤ len(content)`
whose image `rx = cxToRx(row, cx)` does not fall strictly inside a tab's
expansion span, `rxToCx(row, cxToRx(row, cx)) = cx`.  The tab-span hypothesis
is stated as the claim states it; the proof never needs it, because every
value of `cxToRx` is a span boundary. -/
theorem c9_rx_cx_roundtrip (content : List Char) (cx : Nat)
    (hcx : cx ≤ content.length)
    (hspan : insideTabSpanB content (editorRowCxToRx content cx) = false) :
    editorRowRxToCx content (editorRowCxToRx content cx) = cx := by
  have := rxToCxLoop_foldl content 0 0 cx hcx
  simpa [editorRowRxToCx, editorRowCxToRx] using this

/-- Witness for C9 at the row `"a\tb"` with `cx = 2` (so `rx = 8`). -/
theorem c9_roundtrip_witness :
    2 ≤ (['a', '\t', 'b'] : List Char).length ∧
    insideTabSpanB ['a', '\t', 'b'] (editorRowCxToRx ['a', '\t', 'b'] 2) = false ∧
    editorRowRxToCx ['a', '\t', 'b'] (editorRowCxToRx ['a', '\t', 'b'] 2) = 2 :=
  ⟨by decide, by decide, c9_rx_cx_roundtrip ['a', '\t', 'b'] 2 (by decide) (by decide)⟩

/-- Claim C10 counterexample: for a line whose content is exactly `"3a7"`, the
highlight tag sequence after render is NOT `[number, normal, number]`: the
render array keeps its NUL terminator slot, which also receives a tag. -/
theorem c10_highlight_counterexample :
    (mkRow ['3', 'a', '7']).highlights ≠ [HL_NUMBER, HL_NORMAL, HL_NUMBER] := by
  decide

/-- Claim C10 (corrected): for the line `"3a7"` the render is
`['3','a','7',NUL]` and the tags are `[number, normal, number, normal]` — one
tag per rendered character including the NUL terminator slot, a character
tagged `number` iff it is a decimal digit. -/
theorem c10_highlights_amended :
    (mkRow ['3', 'a', '7']).render = ['3', 'a', '7', NULc] ∧
    (mkRow ['3', 'a', '7']).highlights = [HL_NUMBER, HL_NORMAL, HL_NUMBER, HL_NORMAL] ∧
    (mkRow ['3', 'a', '7']).highlights
      = (mkRow ['3', 'a', '7']).render.map
          (fun c => if c.isDigit then HL_NUMBER else HL_NORMAL) :=
  ⟨by decide, by decide, by decide⟩

/-! ### Editor state -/

/-- The status messages the modeled operations set, identified by the format
string used in the source (`editorSetStatusMessage` call sites). -/
inductive StatusMsg where
  | empty : StatusMsg
  | saveAborted : StatusMsg
  | ioError (err : List Char) : StatusMsg
  | bytesWritten (n : Nat) : StatusMsg
deriving DecidableEq, Repr

/-- The editor state: the fields of `editorConfig` in main.go that the modeled
operations touch, together with the package-level variables `lastMatch`,
`direction`, `savedHighlightIndex` and `savedHighlights` of the Find section
(`savedHighlights = none` models the Go `nil` slice). -/
structure editorConfig where
  screenrows : Int
  screencols : Int
  cx : Int
  cy : Int
  rx : Int
  rows : List editorRow
  dirty : Bool
  numrows : Int
  rowOffset : Int
  colOffset : Int
  filename : List Char
  statusMsg : StatusMsg
  lastMatch : Int
  direction : Int
  savedHighlightIndex : Int
  savedHighlights : Option (List Nat)
deriving DecidableEq, Repr

/-- In-place update of one list element, as Go's `&slice[i]` mutation; out of
range it is the identity (the theorems only use it in range). -/
def listModify {α : Type} : List α → Nat → (α → α) → List α
  | [], _, _ => []
  | x :: t, 0, f => f x :: t
  | x :: t, n + 1, f => x :: listModify t n f

/-- `slices.Insert(s, i, v)` for a single element.  The source only calls it
with `i ≤ len(s)` (guarded by `at ≤ numrows`); past the end we append, which
is never exercised by the theorems. -/
def listInsertIdx {α : Type} : List α → Nat → α → List α
  | l, 0, a => a :: l
  | [], _ + 1, a => [a]
  | x :: t, n + 1, a => x :: listInsertIdx t n a

/-! ### `editorScroll` -/

/-- `editorScroll` from main.go: recompute `rx` from `(cx, cy)` (zero on the
virtual line past the end), then pull each offset just far enough that the
cursor is inside the window.  The two row checks and the two column checks are
sequential in the source, the second of each pair reading the value written by
the first; `rowOffset1`/`colOffset1` name those intermediate values. -/
def editorScroll (st : editorConfig) : editorConfig :=
  let rx : Int :=
    if st.cy < st.numrows then
      Int.ofNat (editorRowCxToRx ((st.rows.getD st.cy.toNat emptyRow).content) st.cx.toNat)
    else 0
  let rowOffset1 := if st.cy < st.rowOffset then st.cy else st.rowOffset
  let rowOffset2 := if st.cy ≥ rowOffset1 + st.screenrows then st.cy - st.screenrows + 1 else rowOffset1
  let colOffset1 := if rx < st.colOffset then rx else st.colOffset
  let colOffset2 := if rx ≥ colOffset1 + st.screencols then rx - st.screencols + 1 else colOffset1
  { st with rx := rx, rowOffset := rowOffset2, colOffset := colOffset2 }

/-- The concrete scenario of claim C2: a 30-line buffer, 24 screen rows, both
offsets 0, and the cursor on line 29. -/
def c2state : editorConfig :=
  { screenrows := 24, screencols := 80, cx := 0, cy := 29, rx := 0,
    rows := List.replicate 30 (mkRow []), dirty := false, numrows := 30,
    rowOffset := 0, colOffset := 0, filename := [], statusMsg := .empty,
    lastMatch := -1, direction := 1, savedHighlightIndex := 0, savedHighlights := none }

/-- Claim C2 (confirmed): from any state with `numrows > 0`, screen at least
1×1, `cy ∈ [0, numrows]` and non-negative offsets, `editorScroll` leaves the
cursor visible — `rowOffset ≤ cy < rowOffset + screenrows` and
`colOffset ≤ rx < colOffset + screencols` for the recomputed `rx`; and in the
concrete 30-line scenario moving the cursor to line 29 yields `rowOffset = 6`. -/
theorem c2_scroll_cursor_visible :
    (∀ st : editorConfig, 0 < st.numrows → 1 ≤ st.screenrows → 1 ≤ st.screencols →
      0 ≤ st.cy → st.cy ≤ st.numrows → 0 ≤ st.rowOffset → 0 ≤ st.colOffset →
      ((editorScroll st).rowOffset ≤ st.cy ∧
        st.cy < (editorScroll st).rowOffset + st.screenrows ∧
        (editorScroll st).colOffset ≤ (editorScroll st).rx ∧
        (editorScroll st).rx < (editorScroll st).colOffset + st.screencols)) ∧
    (editorScroll c2state).rowOffset = 6 := by
  constructor
  · intro st _ h1 h2 _ _ _ _
    unfold editorScroll
    dsimp only
    have hrx : (0 : Int) ≤
        (if st.cy < st.numrows then
          Int.ofNat (editorRowCxToRx ((st.rows.getD st.cy.toNat emptyRow).content) st.cx.toNat)
        else 0) := by
      split
      · exact Int.ofNat_nonneg _
      · exact Int.le_refl 0
    constructor
    · split <;> split <;> omega
    constructor
    · split <;> split <;> omega
    constructor
    · split <;> split <;> omega
    · split <;> split <;> omega
  · decide

/-- Witness for the quantified part of C2 at a concrete 2-line state whose
cursor sits below the 1-row window. -/
theorem c2_scroll_witness :
    let st : editorConfig :=
      { screenrows := 1, screencols := 1, cx := 0, cy := 1, rx := 0,
        rows := [mkRow ['a'], mkRow ['b']], dirty := false, numrows := 2,
        rowOffset := 0, colOffset := 0, filename := [], statusMsg := .empty,
        lastMatch := -1, direction := 1, savedHighlightIndex := 0, savedHighlights := none }
    (editorScroll st).rowOffset ≤ st.cy ∧
      st.cy < (editorScroll st).rowOffset + st.screenrows ∧
      (editorScroll st).colOffset ≤ (editorScroll st).rx ∧
      (editorScroll st).rx < (editorScroll st).colOffset + st.screencols :=
  c2_scroll_cursor_visible.1 _ (by decide) (by decide) (by decide) (by decide)
    (by decide) (by decide) (by decide)

/-! ### Buffer operations -/

/-- `editorInsertRow` from main.go.  Note the source re-renders
`config.rows[config.numrows]` — the **last** row of the grown slice — rather
than `config.rows[at]`: only when `at == numrows` (an append) is the freshly
inserted row the one that gets rendered. -/
def editorInsertRow (st : editorConfig) (atIdx : Int) (rowContent : List Char) : editorConfig :=
  if atIdx < 0 ∨ atIdx > st.numrows then st
  else
    let rows1 := listInsertIdx st.rows atIdx.toNat
      { content := rowContent, render := [], highlights := [] }
    let rows2 := listModify rows1 st.numrows.toNat editorUpdateRow
    { st with rows := rows2, numrows := st.numrows + 1, dirty := true }

/-- `editorRowDelChar` from main.go, acting on a row and the dirty flag.
The guard only rejects `at < 0 || at > row.Len()`, so `at == len(content)`
falls through to `slices.Delete([]rune(content), at, at+1)`, whose bounds
`s[at:at+1]` are invalid there — a runtime panic, modeled as `none`. -/
def editorRowDelChar (row : editorRow) (atIdx : Int) (dirty : Bool) :
    Option (editorRow × Bool) :=
  if atIdx < 0 ∨ atIdx > Int.ofNat row.content.length then some (row, dirty)
  else
    if row.content.length < atIdx.toNat + 1 then none
    else
      let content := row.content.take atIdx.toNat ++ row.content.drop (atIdx.toNat + 1)
      some (editorUpdateRow { row with content := content }, true)

/-- Claim C1 (code bug): `editorInsertRow` at an interior index leaves the new
row with empty render and highlights, so `len(rendered) ≥ len(content)` and
"rendered equals the tab expansion of content" both fail; and even for a row
that is rendered, the render is the expansion plus a trailing NUL, not the
expansion itself.  Evaluated at the failing input: a one-line buffer `["a"]`
and `insertLine(0, "x")`. -/
theorem c1_insertRow_breaks_render_invariant :
    let st : editorConfig :=
      { screenrows := 24, screencols := 80, cx := 0, cy := 0, rx := 0,
        rows := [mkRow ['a']], dirty := false, numrows := 1,
        rowOffset := 0, colOffset := 0, filename := [], statusMsg := .empty,
        lastMatch := -1, direction := 1, savedHighlightIndex := 0, savedHighlights := none }
    let st' := editorInsertRow st 0 ['x']
    ((st'.rows.getD 0 emptyRow).content.length = 1 ∧
      (st'.rows.getD 0 emptyRow).render.length = 0 ∧
      (st'.rows.getD 0 emptyRow).highlights.length = 0) ∧
    (mkRow ['a']).render = ['a', NULc] :=
  ⟨⟨by decide, by decide, by decide⟩, by decide⟩

/-- Claim C7 (code bug): `deleteChar(row, at)` is total on the interior —
it is a no-op for `at < 0` or `at > len(content)` and removes exactly one
character for `0 ≤ at < len(content)` — but at `at == len(content)` (here a
row `"ab"` with `at = 2`) it reaches `slices.Delete` with invalid bounds and
panics instead of being a no-op. -/
theorem c7_delchar_panics_at_len :
    editorRowDelChar (mkRow ['a', 'b']) 2 false = none ∧
    (editorRowDelChar (mkRow ['a', 'b']) 1 false).map (fun p => (p.1.content, p.2))
      = some (['a'], true) ∧
    (editorRowDelChar (mkRow ['a', 'b']) 0 false).map (fun p => (p.1.content, p.2))
      = some (['b'], true) ∧
    editorRowDelChar (mkRow ['a', 'b']) 3 false = some (mkRow ['a', 'b'], false) ∧
    editorRowDelChar (mkRow ['a', 'b']) (-1) false = some (mkRow ['a', 'b'], false) :=
  ⟨by decide, by decide, by decide, by decide, by decide⟩

/-! ### `editorMoveCursor` -/

/-- The `row` fetched at the top of `editorMoveCursor`: the current row's
content, or the empty string on the virtual line past the end. -/
def rowAt (st : editorConfig) : List Char :=
  if st.cy < st.numrows then (st.rows.getD st.cy.toNat emptyRow).content else []

/-- The `switch key` body of `editorMoveCursor`.  In the `ARROW_RIGHT` case
the source tests `len(row) >= 0 && cx < len(row)` and then
`len(row) > 0 && cx == len(row)`: the second branch is only reachable for a
**non-empty** row. -/
def moveStep (st : editorConfig) (key : Int) : editorConfig :=
  if key = ARROW_UP then
    if st.cy ≠ 0 then { st with cy := st.cy - 1 } else st
  else if key = ARROW_LEFT then
    if st.cx ≠ 0 then { st with cx := st.cx - 1 }
    else if st.cy > 0 then
      { st with
        cy := st.cy - 1,
        cx := Int.ofNat ((st.rows.getD (st.cy - 1).toNat emptyRow).content.length) }
    else st
  else if key = ARROW_DOWN then
    if st.cy < st.numrows then { st with cy := st.cy + 1 } else st
  else if key = ARROW_RIGHT then
    if 0 ≤ Int.ofNat (rowAt st).length ∧ st.cx < Int.ofNat (rowAt st).length then
      { st with cx := st.cx + 1 }
    else if 0 < Int.ofNat (rowAt st).length ∧ st.cx = Int.ofNat (rowAt st).length then
      { st with cy := st.cy + 1, cx := 0 }
    else st
  else st

/-- The row re-fetched after the move (`row = ""` when `cy >= numrows`). -/
def rowAfterMove (st : editorConfig) : List Char :=
  if st.cy ≥ st.numrows then [] else (st.rows.getD st.cy.toNat emptyRow).content

/-- The tail of `editorMoveCursor`: snap `cx` to the end of the (possibly
shorter) new current row, `rowLength = MAX(len(row), 0)`. -/
def snapCursor (st : editorConfig) : editorConfig :=
  if st.cx > MAX (Int.ofNat (rowAfterMove st).length) 0 then
    { st with cx := MAX (Int.ofNat (rowAfterMove st).length) 0 }
  else st

/-- `editorMoveCursor` from main.go: the key switch followed by the snap. -/
def editorMoveCursor (st : editorConfig) (key : Int) : editorConfig :=
  snapCursor (moveStep st key)

theorem le_MAX_left (a b : Int) : a ≤ MAX a b := by
  unfold MAX; split <;> omega

theorem le_MAX_right (a b : Int) : b ≤ MAX a b := by
  unfold MAX; split <;> omega

theorem snapCursor_le (st : editorConfig) :
    (snapCursor st).cx ≤ MAX (Int.ofNat (rowAfterMove (snapCursor st)).length) 0 := by
  unfold snapCursor
  split
  · exact le_refl _
  · next h => exact not_lt.mp h

theorem moveCursor_right_mid (st : editorConfig)
    (hcy : st.cy < st.numrows)
    (hcx : st.cx < Int.ofNat (st.rows.getD st.cy.toNat emptyRow).content.length) :
    (editorMoveCursor st ARROW_RIGHT).cx = st.cx + 1 ∧
      (editorMoveCursor st ARROW_RIGHT).cy = st.cy := by
  have hrow : rowAt st = (st.rows.getD st.cy.toNat emptyRow).content := if_pos hcy
  have hstep : moveStep st ARROW_RIGHT = { st with cx := st.cx + 1 } := by
    unfold moveStep
    rw [if_neg (by decide : ¬ (ARROW_RIGHT = ARROW_UP)),
      if_neg (by decide : ¬ (ARROW_RIGHT = ARROW_LEFT)),
      if_neg (by decide : ¬ (ARROW_RIGHT = ARROW_DOWN)),
      if_pos (by decide : ARROW_RIGHT = ARROW_RIGHT),
      if_pos ⟨Int.ofNat_nonneg _, by rw [hrow]; exact hcx⟩]
  have hmain : editorMoveCursor st ARROW_RIGHT = snapCursor { st with cx := st.cx + 1 } := by
    unfold editorMoveCursor
    rw [hstep]
  have hrow2 : rowAfterMove { st with cx := st.cx + 1 }
      = (st.rows.getD st.cy.toNat emptyRow).content := by
    unfold rowAfterMove
    exact if_neg (not_le.mpr hcy)
  have hcond : ¬ (({ st with cx := st.cx + 1 } : editorConfig).cx
      > MAX (Int.ofNat (rowAfterMove { st with cx := st.cx + 1 }).length) 0) := by
    rw [hrow2]
    have hle : st.cx + 1 ≤ Int.ofNat (st.rows.getD st.cy.toNat emptyRow).content.length :=
      Int.add_one_le_iff.mpr hcx
    exact not_lt.mpr (le_trans hle (le_MAX_left _ _))
  rw [hmain]
  unfold snapCursor
  rw [if_neg hcond]
  exact ⟨rfl, rfl⟩

theorem moveCursor_right_eol (st : editorConfig)
    (hcy : st.cy < st.numrows)
    (hlen : 0 < (st.rows.getD st.cy.toNat emptyRow).content.length)
    (hcx : st.cx = Int.ofNat (st.rows.getD st.cy.toNat emptyRow).content.length) :
    (editorMoveCursor st ARROW_RIGHT).cy = st.cy + 1 ∧
      (editorMoveCursor st ARROW_RIGHT).cx = 0 := by
  have hrow : rowAt st = (st.rows.getD st.cy.toNat emptyRow).content := if_pos hcy
  have hstep : moveStep st ARROW_RIGHT = { st with cy := st.cy + 1, cx := 0 } := by
    unfold moveStep
    rw [if_neg (by decide : ¬ (ARROW_RIGHT = ARROW_UP)),
      if_neg (by decide : ¬ (ARROW_RIGHT = ARROW_LEFT)),
      if_neg (by decide : ¬ (ARROW_RIGHT = ARROW_DOWN)),
      if_pos (by decide : ARROW_RIGHT = ARROW_RIGHT)]
    rw [if_neg ?hc1, if_pos ?hc2]
    case hc1 =>
      rintro ⟨-, hlt⟩
      rw [hrow, hcx] at hlt
      exact lt_irrefl _ hlt
    case hc2 =>
      refine ⟨?_, by rw [hrow]; exact hcx⟩
      rw [hrow]
      exact Int.ofNat_pos.mpr hlen
  have hmain : editorMoveCursor st ARROW_RIGHT
      = snapCursor { st with cy := st.cy + 1, cx := 0 } := by
    unfold editorMoveCursor
    rw [hstep]
  rw [hmain]
  unfold snapCursor
  rw [if_neg (not_lt.mpr (le_MAX_right _ _))]
  exact ⟨rfl, rfl⟩

theorem moveCursor_right_empty (st : editorConfig)
    (hcy : st.cy < st.numrows)
    (hlen : (st.rows.getD st.cy.toNat emptyRow).content.length = 0)
    (hcx : st.cx = 0) :
    editorMoveCursor st ARROW_RIGHT = st := by
  have hrow : rowAt st = (st.rows.getD st.cy.toNat emptyRow).content := if_pos hcy
  have hstep : moveStep st ARROW_RIGHT = st := by
    unfold moveStep
    rw [if_neg (by decide : ¬ (ARROW_RIGHT = ARROW_UP)),
      if_neg (by decide : ¬ (ARROW_RIGHT = ARROW_LEFT)),
      if_neg (by decide : ¬ (ARROW_RIGHT = ARROW_DOWN)),
      if_pos (by decide : ARROW_RIGHT = ARROW_RIGHT)]
    rw [if_neg ?hc1, if_neg ?hc2]
    case hc1 =>
      rintro ⟨-, hlt⟩
      rw [hrow, hlen, hcx] at hlt
      exact absurd hlt (by decide)
    case hc2 =>
      rintro ⟨hpos, -⟩
      rw [hrow, hlen] at hpos
      exact absurd hpos (by decide)
  unfold editorMoveCursor
  rw [hstep]
  unfold snapCursor
  rw [if_neg ?hc3]
  case hc3 =>
    intro h
    rw [hcx] at h
    exact absurd h (not_lt.mpr (le_MAX_right _ _))

theorem moveCursor_clamp (st : editorConfig) (key : Int) :
    (editorMoveCursor st key).cx
      ≤ MAX (Int.ofNat (rowAfterMove (editorMoveCursor st key)).length) 0 := by
  unfold editorMoveCursor
  exact snapCursor_le (moveStep st key)

/-- The concrete counterexample state for claim C8: the cursor at column 0 of
an **empty** first line, with a second line below it. -/
def c8state : editorConfig :=
  { screenrows := 24, screencols := 80, cx := 0, cy := 0, rx := 0,
    rows := [mkRow [], mkRow ['a']], dirty := false, numrows := 2,
    rowOffset := 0, colOffset := 0, filename := [], statusMsg := .empty,
    lastMatch := -1, direction := 1, savedHighlightIndex := 0, savedHighlights := none }

/-- Claim C8 counterexample: on an empty current line (`cx = 0 = len`), Arrow
Right does NOT move to column 0 of the next line — the guard
`len(row) > 0 && cx == len(row)` fails for an empty row, so the whole move is
a no-op, contradicting the claim's "including when the current line is empty". -/
theorem c8_right_on_empty_line_noop :
    editorMoveCursor c8state ARROW_RIGHT = c8state ∧
      (editorMoveCursor c8state ARROW_RIGHT).cy = 0 :=
  ⟨by decide, by decide⟩

/-- Claim C8 (corrected): Arrow Right increments `cx` while `cx` is below the
current line's length; at the end of a **non-empty** line (and not on the
virtual past-end line) it moves to column 0 of the next line; on an empty line
it is a no-op; and after any cursor move `cx` is clamped to (at most) the new
current line's length. -/
theorem c8_move_cursor_right :
    (∀ st : editorConfig, st.cy < st.numrows →
      st.cx < Int.ofNat (st.rows.getD st.cy.toNat emptyRow).content.length →
      (editorMoveCursor st ARROW_RIGHT).cx = st.cx + 1 ∧
        (editorMoveCursor st ARROW_RIGHT).cy = st.cy) ∧
    (∀ st : editorConfig, st.cy < st.numrows →
      0 < (st.rows.getD st.cy.toNat emptyRow).content.length →
      st.cx = Int.ofNat (st.rows.getD st.cy.toNat emptyRow).content.length →
      (editorMoveCursor st ARROW_RIGHT).cy = st.cy + 1 ∧
        (editorMoveCursor st ARROW_RIGHT).cx = 0) ∧
    (∀ st : editorConfig, st.cy < st.numrows →
      (st.rows.getD st.cy.toNat emptyRow).content.length = 0 →
      st.cx = 0 →
      editorMoveCursor st ARROW_RIGHT = st) ∧
    (∀ (st : editorConfig) (key : Int),
      (editorMoveCursor st key).cx
        ≤ MAX (Int.ofNat (rowAfterMove (editorMoveCursor st key)).length) 0) :=
  ⟨fun st h1 h2 => moveCursor_right_mid st h1 h2,
    fun st h1 h2 h3 => moveCursor_right_eol st h1 h2 h3,
    fun st h1 h2 h3 => moveCursor_right_empty st h1 h2 h3,
    fun st key => moveCursor_clamp st key⟩

/-- Witness for C8: at the end of the non-empty line `"ab"` (cx = 2), Arrow
Right moves to column 0 of the next line. -/
theorem c8_move_cursor_witness :
    let st : editorConfig :=
      { screenrows := 24, screencols := 80, cx := 2, cy := 0, rx := 0,
        rows := [mkRow ['a', 'b'], mkRow []], dirty := false, numrows := 2,
        rowOffset := 0, colOffset := 0, filename := [], statusMsg := .empty,
        lastMatch := -1, direction := 1, savedHighlightIndex := 0, savedHighlights := none }
    (editorMoveCursor st ARROW_RIGHT).cy = st.cy + 1 ∧
      (editorMoveCursor st ARROW_RIGHT).cx = 0 :=
  c8_move_cursor_right.2.1 _ (by decide) (by decide) (by decide)

/-! ### `editorReadKey` -/

/-- The escape-sequence decoding that `editorReadKey` performs once it has
read an ESC: the list is the stream of units still readable; running out of
list models a read that fails (timeout), which the source answers with `ESC`.
The source reads `seq[0]` and `seq[1]` before examining either, so `ESC`
followed by a single unit is unrecognized whatever that unit is; `seq[2]` is
read only after `seq[0] == '['` and a digit `seq[1]`. -/
def escDecodeTilde (b : Char) : List Char → Int
  | [] => ESC
  | c :: _ =>
    if c = '~' then
      if b = '1' then HOME_KEY
      else if b = '3' then DEL_KEY
      else if b = '4' then END_KEY
      else if b = '5' then PAGE_UP
      else if b = '6' then PAGE_DOWN
      else if b = '7' then HOME_KEY
      else if b = '8' then END_KEY
      else ESC
    else ESC

def escDecode : List Char → Int
  | [] => ESC
  | [_] => ESC
  | a :: b :: rest =>
    if a = '[' then
      if '0' ≤ b ∧ b ≤ '9' then
        escDecodeTilde b rest
      else
        if b = 'A' then ARROW_UP
        else if b = 'B' then ARROW_DOWN
        else if b = 'C' then ARROW_RIGHT
        else if b = 'D' then ARROW_LEFT
        else if b = 'H' then HOME_KEY
        else if b = 'F' then END_KEY
        else ESC
    else if a = 'O' then
      if b = 'H' then HOME_KEY
      else if b = 'F' then END_KEY
      else ESC
    else ESC

/-- Unfolding equation for `escDecode` on a two-unit tail, left entirely
symbolic so each condition can be discharged separately. -/
theorem escDecode_cons (a b : Char) (rest : List Char) :
    escDecode (a :: b :: rest) =
      if a = '[' then
        if '0' ≤ b ∧ b ≤ '9' then
          escDecodeTilde b rest
        else
          if b = 'A' then ARROW_UP
          else if b = 'B' then ARROW_DOWN
          else if b = 'C' then ARROW_RIGHT
          else if b = 'D' then ARROW_LEFT
          else if b = 'H' then HOME_KEY
          else if b = 'F' then END_KEY
          else ESC
      else if a = 'O' then
        if b = 'H' then HOME_KEY
        else if b = 'F' then END_KEY
        else ESC
      else ESC := rfl

/-- Unfolding equation for the third read of an `ESC [ digit` sequence. -/
theorem escDecodeTilde_cons (b c : Char) (rest : List Char) :
    escDecodeTilde b (c :: rest) =
      if c = '~' then
        if b = '1' then HOME_KEY
        else if b = '3' then DEL_KEY
        else if b = '4' then END_KEY
        else if b = '5' then PAGE_UP
        else if b = '6' then PAGE_DOWN
        else if b = '7' then HOME_KEY
        else if b = '8' then END_KEY
        else ESC
      else ESC := rfl

/-- `editorReadKey` from main.go over the stream of runes the reads deliver.
The leading loop spins until it gets a non-NUL rune (`'\u0000'` is what a
timed-out read yields, and also what a literal 0x00 byte yields, so leading
NUL units are silently skipped); if no non-NUL unit ever arrives the loop
never terminates, modeled as `none`. -/
def editorReadKey (input : List Char) : Option Int :=
  match input.dropWhile (fun c => c = NULc) with
  | [] => none
  | c :: rest => if c = ESCc then some (escDecode rest) else some (Int.ofNat c.toNat)

/-- Reading one non-NUL unit at the head of the stream. -/
theorem editorReadKey_cons (c : Char) (rest : List Char) (h : c ≠ NULc) :
    editorReadKey (c :: rest)
      = if c = ESCc then some (escDecode rest) else some (Int.ofNat c.toNat) := by
  unfold editorReadKey
  rw [List.dropWhile_cons]
  simp [h]

/-- Claim C3 counterexample: the unit sequence starting with a NUL unit
(`0x00`, which is not ESC) does not emit that first unit as the plain
character code 0 — the read loop skips NUL units, and `'a'` is emitted
instead. -/
theorem c3_nul_unit_counterexample :
    editorReadKey [NULc, 'a'] = some 97 ∧ editorReadKey [NULc, 'a'] ≠ some 0 :=
  ⟨by decide, by decide⟩

/-- Claim C3 (corrected): the decoder emits Up/Down/Right/Left/Home/End for
`ESC [` + `A`/`B`/`C`/`D`/`H`/`F`; Home/Delete/End/PageUp/PageDown/Home/End
for `ESC [` + digit 1,3,4,5,6,7,8 + `~` (other digits with `~` give ESC);
Home/End for `ESC O` + `H`/`F`; ESC for a lone ESC, for ESC followed by one
unit only, and for every other unrecognized tail; a first unit that is
neither ESC nor NUL is emitted unchanged as its plain character code; and a
leading NUL unit is skipped rather than emitted. -/
theorem c3_key_decoder :
    (∀ rest : List Char,
      editorReadKey (ESCc :: '[' :: 'A' :: rest) = some ARROW_UP ∧
      editorReadKey (ESCc :: '[' :: 'B' :: rest) = some ARROW_DOWN ∧
      editorReadKey (ESCc :: '[' :: 'C' :: rest) = some ARROW_RIGHT ∧
      editorReadKey (ESCc :: '[' :: 'D' :: rest) = some ARROW_LEFT ∧
      editorReadKey (ESCc :: '[' :: 'H' :: rest) = some HOME_KEY ∧
      editorReadKey (ESCc :: '[' :: 'F' :: rest) = some END_KEY) ∧
    (∀ rest : List Char,
      editorReadKey (ESCc :: '[' :: '1' :: '~' :: rest) = some HOME_KEY ∧
      editorReadKey (ESCc :: '[' :: '3' :: '~' :: rest) = some DEL_KEY ∧
      editorReadKey (ESCc :: '[' :: '4' :: '~' :: rest) = some END_KEY ∧
      editorReadKey (ESCc :: '[' :: '5' :: '~' :: rest) = some PAGE_UP ∧
      editorReadKey (ESCc :: '[' :: '6' :: '~' :: rest) = some PAGE_DOWN ∧
      editorReadKey (ESCc :: '[' :: '7' :: '~' :: rest) = some HOME_KEY ∧
      editorReadKey (ESCc :: '[' :: '8' :: '~' :: rest) = some END_KEY ∧
      editorReadKey (ESCc :: '[' :: '0' :: '~' :: rest) = some ESC ∧
      editorReadKey (ESCc :: '[' :: '2' :: '~' :: rest) = some ESC ∧
      editorReadKey (ESCc :: '[' :: '9' :: '~' :: rest) = some ESC) ∧
    (∀ rest : List Char,
      editorReadKey (ESCc :: 'O' :: 'H' :: rest) = some HOME_KEY ∧
      editorReadKey (ESCc :: 'O' :: 'F' :: rest) = some END_KEY) ∧
    (editorReadKey [ESCc] = some ESC ∧ ∀ a : Char, editorReadKey [ESCc, a] = some ESC) ∧
    (∀ (a b : Char) (rest : List Char), a ≠ '[' → a ≠ 'O' →
      editorReadKey (ESCc :: a :: b :: rest) = some ESC) ∧
    (∀ (b : Char) (rest : List Char), ¬ ('0' ≤ b ∧ b ≤ '9') →
      b ≠ 'A' → b ≠ 'B' → b ≠ 'C' → b ≠ 'D' → b ≠ 'H' → b ≠ 'F' →
      editorReadKey (ESCc :: '[' :: b :: rest) = some ESC) ∧
    (∀ b : Char, '0' ≤ b ∧ b ≤ '9' → editorReadKey [ESCc, '[', b] = some ESC) ∧
    (∀ (b c : Char) (rest : List Char), '0' ≤ b ∧ b ≤ '9' → c ≠ '~' →
      editorReadKey (ESCc :: '[' :: b :: c :: rest) = some ESC) ∧
    (∀ (b : Char) (rest : List Char), b ≠ 'H' → b ≠ 'F' →
      editorReadKey (ESCc :: 'O' :: b :: rest) = some ESC) ∧
    (∀ (c : Char) (rest : List Char), c ≠ ESCc → c ≠ NULc →
      editorReadKey (c :: rest) = some (Int.ofNat c.toNat)) ∧
    (∀ rest : List Char, editorReadKey (NULc :: rest) = editorReadKey rest) := by
  refine ⟨fun rest => ⟨rfl, rfl, rfl, rfl, rfl, rfl⟩,
    fun rest => ⟨rfl, rfl, rfl, rfl, rfl, rfl, rfl, rfl, rfl, rfl⟩,
    fun rest => ⟨rfl, rfl⟩,
    ⟨rfl, fun a => rfl⟩, ?_, ?_, ?_, ?_, ?_, ?_, ?_⟩
  · intro a b rest h1 h2
    rw [editorReadKey_cons _ _ (by decide), if_pos rfl, escDecode_cons,
      if_neg h1, if_neg h2]
  · intro b rest hdig hA hB hC hD hH hF
    rw [editorReadKey_cons _ _ (by decide), if_pos rfl, escDecode_cons,
      if_pos rfl, if_neg hdig, if_neg hA, if_neg hB, if_neg hC, if_neg hD,
      if_neg hH, if_neg hF]
  · intro b hdig
    rw [editorReadKey_cons _ _ (by decide), if_pos rfl, escDecode_cons,
      if_pos rfl, if_pos hdig]
    rfl
  · intro b c rest hdig hc
    rw [editorReadKey_cons _ _ (by decide), if_pos rfl, escDecode_cons,
      if_pos rfl, if_pos hdig, escDecodeTilde_cons, if_neg hc]
  · intro b rest hH hF
    rw [editorReadKey_cons _ _ (by decide), if_pos rfl, escDecode_cons,
      if_neg (by decide : ¬ (('O' : Char) = '[')), if_pos rfl, if_neg hH, if_neg hF]
  · intro c rest h1 h2
    rw [editorReadKey_cons _ _ h2, if_neg h1]
  · intro rest
    unfold editorReadKey
    rw [List.dropWhile_cons]
    simp

/-- Witness for C3: the plain-character clause at `'x'`. -/
theorem c3_key_decoder_witness :
    ('x' : Char) ≠ ESCc ∧ ('x' : Char) ≠ NULc ∧
      editorReadKey ['x'] = some (Int.ofNat ('x' : Char).toNat) :=
  ⟨by decide, by decide,
    c3_key_decoder.2.2.2.2.2.2.2.2.2.1 'x' [] (by decide) (by decide)⟩

/-! ### Quit handling (`editorProcessKeypress`) -/

/-- The projection of `editorProcessKeypress` onto the quit logic: given the
dirty flag at entry and the current `quitTimes` counter, return the counter
after the keypress and whether the editor keeps running (`true`) or exits
(`false`).  In the source the `Ctrl-Q` case returns early — warning and
decrementing while `dirty && quitTimes > 0`, exiting otherwise — and **every**
other key falls through its case to the final `quitTimes = KILO_QUIT_TIMES`
reset before returning `true`; no other case returns or touches `quitTimes`. -/
def editorProcessKeypressQuit (dirty : Bool) (quitTimes : Int) (key : Int) : Int × Bool :=
  if key = CTRL_KEY 'q' then
    if dirty ∧ quitTimes > 0 then (quitTimes - 1, true) else (quitTimes, false)
  else (KILO_QUIT_TIMES, true)

/-- Claim C5 counterexample: with the dirty flag set and the counter at its
initial value `KILO_QUIT_TIMES = 3`, three consecutive Ctrl-Q presses do NOT
exit the editor — each of the three returns "keep running". -/
theorem c5_three_presses_insufficient :
    (editorProcessKeypressQuit true KILO_QUIT_TIMES (CTRL_KEY 'q')).2 = true ∧
    (editorProcessKeypressQuit true
      (editorProcessKeypressQuit true KILO_QUIT_TIMES (CTRL_KEY 'q')).1
      (CTRL_KEY 'q')).2 = true ∧
    (editorProcessKeypressQuit true
      (editorProcessKeypressQuit true
        (editorProcessKeypressQuit true KILO_QUIT_TIMES (CTRL_KEY 'q')).1
        (CTRL_KEY 'q')).1
      (CTRL_KEY 'q')).2 = true :=
  ⟨by decide, by decide, by decide⟩

/-- Claim C5 (corrected): with the dirty flag set, a Ctrl-Q press with a
positive counter only warns and decrements; the editor exits on the Ctrl-Q
press that finds the counter at zero — so `KILO_QUIT_TIMES + 1 = 4`
consecutive presses are required from the initial counter (the fourth-press
chain below); with a clean buffer Ctrl-Q exits at once; and any key other
than Ctrl-Q resets the counter to `KILO_QUIT_TIMES` and keeps running. -/
theorem c5_quit_behavior :
    (∀ qt : Int, 0 < qt →
      editorProcessKeypressQuit true qt (CTRL_KEY 'q') = (qt - 1, true)) ∧
    (∀ qt : Int, qt ≤ 0 →
      editorProcessKeypressQuit true qt (CTRL_KEY 'q') = (qt, false)) ∧
    (∀ qt : Int, editorProcessKeypressQuit false qt (CTRL_KEY 'q') = (qt, false)) ∧
    (∀ (dirty : Bool) (qt key : Int), key ≠ CTRL_KEY 'q' →
      editorProcessKeypressQuit dirty qt key = (KILO_QUIT_TIMES, true)) ∧
    (editorProcessKeypressQuit true
      (editorProcessKeypressQuit true
        (editorProcessKeypressQuit true
          (editorProcessKeypressQuit true KILO_QUIT_TIMES (CTRL_KEY 'q')).1
          (CTRL_KEY 'q')).1
        (CTRL_KEY 'q')).1
      (CTRL_KEY 'q')).2 = false := by
  refine ⟨?_, ?_, ?_, ?_, by decide⟩
  · intro qt h
    unfold editorProcessKeypressQuit
    rw [if_pos rfl, if_pos ⟨rfl, h⟩]
  · intro qt h
    unfold editorProcessKeypressQuit
    rw [if_pos rfl, if_neg ?_]
    rintro ⟨-, h2⟩
    exact absurd h2 (not_lt.mpr h)
  · intro qt
    unfold editorProcessKeypressQuit
    rw [if_pos rfl, if_neg ?_]
    rintro ⟨h, -⟩
    exact absurd h (by decide)
  · intro dirty qt key h
    unfold editorProcessKeypressQuit
    rw [if_neg h]

/-- Witness for C5: a single warning press from the initial counter. -/
theorem c5_quit_witness :
    (0 : Int) < KILO_QUIT_TIMES ∧
      editorProcessKeypressQuit true KILO_QUIT_TIMES (CTRL_KEY 'q')
        = (KILO_QUIT_TIMES - 1, true) :=
  ⟨by decide, c5_quit_behavior.1 KILO_QUIT_TIMES (by decide)⟩

/-! ### Saving (`editorSave`) -/

/-- The outcome of the filesystem calls `editorSave` makes: `os.Create`
succeeds or fails, and if it succeeds `WriteString` succeeds or fails. -/
inductive FsResult where
  | ok : FsResult
  | createErr (err : List Char) : FsResult
  | writeErr (err : List Char) : FsResult
deriving DecidableEq, Repr

/-- `editorRowsToString` from main.go: each row's content followed by a
newline. -/
def editorRowsToString (rows : List editorRow) : List Char :=
  rows.foldl (fun acc r => acc ++ r.content ++ ['
']) []

/-- `editorSave` from main.go.  `promptResult` is the outcome of the
`editorPrompt` call made when no filename is set (`none` = user cancelled, in
which case the source sets the "Save aborted" status, keeps the empty
filename, and **continues**).  A create failure hits
`panic("Failed to create ...")` — modeled as `none`, the process aborts.  A
write failure sets the I/O-error status and leaves the dirty flag untouched;
success clears the dirty flag and reports the byte count. -/
def editorSave (st : editorConfig) (promptResult : Option (List Char))
    (fs : FsResult) : Option editorConfig :=
  let st1 :=
    if st.filename = [] then
      match promptResult with
      | some name => { st with filename := name }
      | none => { st with filename := [], statusMsg := .saveAborted }
    else st
  match fs with
  | .createErr _ => none
  | .writeErr e => some { st1 with statusMsg := .ioError e }
  | .ok => some { st1 with
      dirty := false,
      statusMsg := .bytesWritten (editorRowsToString st1.rows).length }

/-- A concrete dirty one-line buffer with a filename, mid-save. -/
def c6state : editorConfig :=
  { screenrows := 24, screencols := 80, cx := 0, cy := 0, rx := 0,
    rows := [mkRow ['h', 'i']], dirty := true, numrows := 1,
    rowOffset := 0, colOffset := 0, filename := ['f'], statusMsg := .empty,
    lastMatch := -1, direction := 1, savedHighlightIndex := 0, savedHighlights := none }

/-- Claim C6 counterexample: a save attempt on a dirty buffer whose
`os.Create` fails does not report through the status message and continue —
`editorSave` panics and the editor aborts (`none`), so create failures are
not recoverable. -/
theorem c6_create_error_fatal :
    editorSave c6state (some []) (.createErr ['e']) = none := rfl

/-- Claim C6 (corrected): write failures are recoverable exactly as the claim
says — the I/O error is reported in the status message, the editor keeps
running, and the dirty flag (and buffer) are unchanged — and a successful
save clears the dirty flag; but open/create failures are fatal: `editorSave`
panics instead of continuing. -/
theorem c6_save_error_handling :
    (∀ (st : editorConfig) (pr : Option (List Char)) (e : List Char),
      ∃ st', editorSave st pr (.writeErr e) = some st' ∧
        st'.dirty = st.dirty ∧ st'.statusMsg = .ioError e ∧
        st'.rows = st.rows ∧ st'.cx = st.cx ∧ st'.cy = st.cy) ∧
    (∀ (st : editorConfig) (pr : Option (List Char)) (e : List Char),
      editorSave st pr (.createErr e) = none) ∧
    (∀ (st : editorConfig) (pr : Option (List Char)),
      ∃ st', editorSave st pr .ok = some st' ∧ st'.dirty = false) := by
  refine ⟨?_, ?_, ?_⟩
  · intro st pr e
    unfold editorSave
    dsimp only
    split
    · cases pr with
      | some name => exact ⟨_, rfl, rfl, rfl, rfl, rfl, rfl⟩
      | none => exact ⟨_, rfl, rfl, rfl, rfl, rfl, rfl⟩
    · exact ⟨_, rfl, rfl, rfl, rfl, rfl, rfl⟩
  · intro st pr e
    rfl
  · intro st pr
    unfold editorSave
    dsimp only
    split
    · cases pr with
      | some name => exact ⟨_, rfl, rfl⟩
      | none => exact ⟨_, rfl, rfl⟩
    · exact ⟨_, rfl, rfl⟩

/-! ### Search (`editorOnInputFind`) -/

/-- Whether `needle` occurs at the head of `hay`. -/
def matchesAt : List Char → List Char → Bool
  | _, [] => true
  | [], _ :: _ => false
  | h :: t, n :: ns => h == n && matchesAt t ns

/-- The scan of `strings.Index(string(hay), string(needle))`. -/
def strIndexLoop (needle : List Char) : List Char → Nat → Option Nat
  | [], i => if matchesAt [] needle then some i else none
  | c :: t, i =>
    if matchesAt (c :: t) needle then some i else strIndexLoop needle t (i + 1)

/-- `strings.Index(string(hay), string(needle))`: the first index at which
`needle` occurs in `hay`, or `none` (Go's -1).  All inputs here are ASCII, so
Go's byte index agrees with the rune index. -/
def strIndex (hay needle : List Char) : Option Nat :=
  strIndexLoop needle hay 0

/-- The highlight-restore step at the top of `editorOnInputFind`: when a saved
snapshot exists, copy it back over the first `len(render)` tags of the saved
row and clear the snapshot.  The Go loop indexes
`config.rows[savedHighlightIndex]`, `savedHighlights[i]` and `highlights[i]`
for `i` over the render — out of range any of these panics (`none`). -/
def editorFindRestore (st : editorConfig) : Option editorConfig :=
  match st.savedHighlights with
  | none => some st
  | some sh =>
    if 0 ≤ st.savedHighlightIndex ∧ st.savedHighlightIndex.toNat < st.rows.length ∧
        (st.rows.getD st.savedHighlightIndex.toNat emptyRow).render.length ≤ sh.length ∧
        (st.rows.getD st.savedHighlightIndex.toNat emptyRow).render.length ≤
          (st.rows.getD st.savedHighlightIndex.toNat emptyRow).highlights.length then
      some { st with
        rows := listModify st.rows st.savedHighlightIndex.toNat (fun r =>
          { r with highlights := sh.take r.render.length ++ r.highlights.drop r.render.length }),
        savedHighlightIndex := 0,
        savedHighlights := none }
    else none

/-- The wrap of the scan: `-1 → numrows-1` and `numrows → 0`. -/
def wrapRow (st : editorConfig) (c : Int) : Int :=
  if c = -1 then st.numrows - 1 else if c = st.numrows then 0 else c

/-- Writing `HL_MATCH` over `len` tags starting at `start` — the
`row.highlights[matchIndex+i] = HL_MATCH` loop, in bounds. -/
def hlSetRange (hl : List Nat) (start len : Nat) : List Nat :=
  hl.take start ++ List.replicate len HL_MATCH ++ hl.drop (start + len)

/-- The hit branch of the scan: record `lastMatch`, move the cursor to the
match (`cx` from `editorRowRxToCx` at the match index), force
`rowOffset = numrows` so the next scroll recomputes, snapshot the row's tags
(`make` of render length, copied from `highlights`), then overlay `HL_MATCH`
on the matched span.  The copy and the overlay index `highlights` — out of
its range is a panic (`none`). -/
def findHit (st : editorConfig) (query : List Char) (cur : Int) (matchIndex : Nat) :
    Option editorConfig :=
  if matchIndex + query.length ≤ (st.rows.getD cur.toNat emptyRow).highlights.length ∧
      (st.rows.getD cur.toNat emptyRow).render.length ≤
        (st.rows.getD cur.toNat emptyRow).highlights.length then
    some { st with
      lastMatch := cur,
      cy := cur,
      cx := Int.ofNat (editorRowRxToCx (st.rows.getD cur.toNat emptyRow).content matchIndex),
      rowOffset := st.numrows,
      savedHighlightIndex := cur,
      savedHighlights := some ((st.rows.getD cur.toNat emptyRow).highlights.take
        (st.rows.getD cur.toNat emptyRow).render.length),
      rows := listModify st.rows cur.toNat (fun r =>
        { r with highlights := hlSetRange r.highlights matchIndex query.length }) }
  else none

/-- The scan loop of `editorOnInputFind`: `for range config.rows` bounds the
scan to `len(rows)` candidates (the fuel); each step advances `currentRow` by
`direction`, wraps, and takes the first candidate whose render contains the
query as a substring.  Indexing `config.rows[currentRow]` outside
`[0, len(rows))` is a panic (`none`). -/
def findLoop (st : editorConfig) (query : List Char) : Nat → Int → Option editorConfig
  | 0, _ => some st
  | fuel + 1, currentRow =>
    if wrapRow st (currentRow + st.direction) < 0 ∨
        st.rows.length ≤ (wrapRow st (currentRow + st.direction)).toNat then none
    else
      match strIndex
          (st.rows.getD (wrapRow st (currentRow + st.direction)).toNat emptyRow).render
          query with
      | none => findLoop st query fuel (wrapRow st (currentRow + st.direction))
      | some matchIndex =>
        findHit st query (wrapRow st (currentRow + st.direction)) matchIndex

/-- The key dispatch of `editorOnInputFind` after the terminate keys:
Right/Down set `direction = 1`, Left/Up set `direction = -1`, anything else
restarts (`lastMatch = -1`, `direction = 1`). -/
def findKeyUpdate (st : editorConfig) (key : Int) : editorConfig :=
  if key = ARROW_RIGHT ∨ key = ARROW_DOWN then { st with direction := 1 }
  else if key = ARROW_LEFT ∨ key = ARROW_UP then { st with direction := -1 }
  else { st with lastMatch := -1, direction := 1 }

/-- `if lastMatch == -1 { direction = 1 }`. -/
def findForceForward (st : editorConfig) : editorConfig :=
  if st.lastMatch = -1 then { st with direction := 1 } else st

/-- `editorOnInputFind` from main.go: restore any saved highlight snapshot;
`Enter` (13) or `ESC` resets `lastMatch`/`direction` and returns; otherwise
update the direction from the key, force forward search when there is no last
match, and scan starting from `lastMatch`. -/
def editorOnInputFind (st0 : editorConfig) (query : List Char) (key : Int) :
    Option editorConfig :=
  match editorFindRestore st0 with
  | none => none
  | some st =>
    if key = 13 ∨ key = ESC then
      some { st with lastMatch := -1, direction := 1 }
    else
      findLoop (findForceForward (findKeyUpdate st key)) query
        (findForceForward (findKeyUpdate st key)).rows.length
        (findForceForward (findKeyUpdate st key)).lastMatch

theorem findLoop_no_match (st : editorConfig) (query : List Char)
    (hnum : st.numrows = Int.ofNat st.rows.length)
    (hpos : 0 < st.numrows)
    (hdir : st.direction = 1 ∨ st.direction = -1)
    (hq : ∀ idx : Nat, strIndex (st.rows.getD idx emptyRow).render query = none) :
    ∀ (fuel : Nat) (cur : Int),
      ((cur = -1 ∧ st.direction = 1) ∨ (0 ≤ cur ∧ cur < st.numrows)) →
      findLoop st query fuel cur = some st := by
  intro fuel
  induction fuel with
  | zero => intro cur _; rfl
  | succ n ih =>
    intro cur hinv
    have hrange : 0 ≤ wrapRow st (cur + st.direction) ∧
        wrapRow st (cur + st.direction) < st.numrows := by
      unfold wrapRow
      split
      · omega
      · split
        · omega
        · next h1 h2 =>
          rcases hdir with hd | hd <;> rcases hinv with ⟨h3, h4⟩ | ⟨h3, h4⟩ <;> omega
    have hguard : ¬ (wrapRow st (cur + st.direction) < 0 ∨
        st.rows.length ≤ (wrapRow st (cur + st.direction)).toNat) := by
      rw [hnum] at hrange
      simp only [Int.ofNat_eq_natCast] at hrange
      omega
    unfold findLoop
    rw [if_neg hguard, hq (wrapRow st (cur + st.direction)).toNat]
    exact ih (wrapRow st (cur + st.direction)) (Or.inr hrange)

theorem findKeyUpdate_pres (st : editorConfig) (key : Int) :
    (findKeyUpdate st key).cx = st.cx ∧ (findKeyUpdate st key).cy = st.cy ∧
    (findKeyUpdate st key).rows = st.rows ∧ (findKeyUpdate st key).numrows = st.numrows ∧
    ((findKeyUpdate st key).direction = 1 ∨ (findKeyUpdate st key).direction = -1) ∧
    ((findKeyUpdate st key).lastMatch = -1 ∨ (findKeyUpdate st key).lastMatch = st.lastMatch) := by
  unfold findKeyUpdate
  split
  · exact ⟨rfl, rfl, rfl, rfl, Or.inl rfl, Or.inr rfl⟩
  · split
    · exact ⟨rfl, rfl, rfl, rfl, Or.inr rfl, Or.inr rfl⟩
    · exact ⟨rfl, rfl, rfl, rfl, Or.inl rfl, Or.inl rfl⟩

theorem findForceForward_pres (st : editorConfig) :
    (findForceForward st).cx = st.cx ∧ (findForceForward st).cy = st.cy ∧
    (findForceForward st).rows = st.rows ∧ (findForceForward st).numrows = st.numrows ∧
    (findForceForward st).lastMatch = st.lastMatch ∧
    ((findForceForward st).direction = st.direction ∨ (findForceForward st).direction = 1) := by
  unfold findForceForward
  split
  · exact ⟨rfl, rfl, rfl, rfl, rfl, Or.inr rfl⟩
  · exact ⟨rfl, rfl, rfl, rfl, rfl, Or.inl rfl⟩

theorem findForceForward_neg1 (st : editorConfig) (h : st.lastMatch = -1) :
    (findForceForward st).direction = 1 := by
  unfold findForceForward
  rw [if_pos h]

/-- A failed scan changes neither the cursor nor the buffer: from any state
with no pending highlight snapshot, valid `numrows`/`lastMatch`, and a query
contained in no row's render, `editorOnInputFind` succeeds and preserves
`cx`, `cy` and all rows (hence all highlights). -/
theorem editorOnInputFind_no_match (st : editorConfig) (query : List Char) (key : Int)
    (hsaved : st.savedHighlights = none)
    (hnum : st.numrows = Int.ofNat st.rows.length)
    (hlm1 : -1 ≤ st.lastMatch) (hlm2 : st.lastMatch < st.numrows)
    (hq : ∀ idx : Nat, strIndex (st.rows.getD idx emptyRow).render query = none) :
    ∃ st', editorOnInputFind st query key = some st' ∧
      st'.cx = st.cx ∧ st'.cy = st.cy ∧ st'.rows = st.rows := by
  have hrestore : editorFindRestore st = some st := by
    unfold editorFindRestore
    rw [hsaved]
  unfold editorOnInputFind
  rw [hrestore]
  dsimp only
  by_cases hk : key = 13 ∨ key = ESC
  · rw [if_pos hk]
    exact ⟨_, rfl, rfl, rfl, rfl⟩
  · rw [if_neg hk]
    obtain ⟨k1, k2, k3, k4, k5, k6⟩ := findKeyUpdate_pres st key
    obtain ⟨f1, f2, f3, f4, f5, f6⟩ := findForceForward_pres (findKeyUpdate st key)
    by_cases hlen : st.rows.length = 0
    · -- empty buffer: the scan has zero fuel and returns immediately
      refine ⟨findForceForward (findKeyUpdate st key), ?_, ?_, ?_, ?_⟩
      · have hfuel : (findForceForward (findKeyUpdate st key)).rows.length = 0 := by
          rw [f3, k3, hlen]
        rw [hfuel]
        rfl
      · rw [f1, k1]
      · rw [f2, k2]
      · rw [f3, k3]
    · have hpos : 0 < st.numrows := by
        rw [hnum]
        simp only [Int.ofNat_eq_natCast]
        omega
      refine ⟨findForceForward (findKeyUpdate st key),
        findLoop_no_match _ query ?_ ?_ ?_ ?_ _ _ ?_, ?_, ?_, ?_⟩
      · rw [f4, k4, f3, k3, hnum]
      · rw [f4, k4]
        exact hpos
      · rcases f6 with h | h
        · rw [h]
          exact k5
        · exact Or.inl h
      · intro idx
        rw [f3, k3]
        exact hq idx
      · rcases k6 with h | h
        · left
          exact ⟨by rw [f5, h], findForceForward_neg1 _ h⟩
        · by_cases hm : st.lastMatch = -1
          · left
            exact ⟨by rw [f5, h, hm], findForceForward_neg1 _ (by rw [h, hm])⟩
          · right
            constructor
            · rw [f5, h]
              omega
            · rw [f5, h, f4, k4]
              exact hlm2
      · rw [f1, k1]
      · rw [f2, k2]
      · rw [f3, k3]

/-- The 6-line buffer of the C4 scenario: the query `"qw"` occurs only in the
render of line 2. -/
def c4state : editorConfig :=
  { screenrows := 24, screencols := 80, cx := 0, cy := 0, rx := 0,
    rows := [mkRow ['a', 'b'], mkRow ['c', 'd'], mkRow ['q', 'w'],
             mkRow ['e', 'f'], mkRow ['g', 'h'], mkRow ['i', 'j']],
    dirty := false, numrows := 6,
    rowOffset := 0, colOffset := 0, filename := [], statusMsg := .empty,
    lastMatch := -1, direction := 1, savedHighlightIndex := 0, savedHighlights := none }

/-- Claim C4 (confirmed): one search step scans at most `numlines` candidates
starting at `lastMatch + direction` with wraparound (the fuel of `findLoop`
is `len(rows)` and each step advances by `direction` and wraps), selecting
the first candidate whose render contains the query.  Concretely: with the
query only on line 2 of 6 and `lastMatch = -1` (typing a query character),
the match is line 2; pressing Down from `lastMatch = 2` wraps through
3,4,5,0,1 and finds line 2 again; and a step in which no examined row matches
leaves the cursor and all rows (hence highlights) unchanged. -/
theorem c4_search_step :
    ((editorOnInputFind c4state ['q', 'w'] 119).map (fun s => (s.cy, s.cx, s.lastMatch))
      = some (2, 0, 2)) ∧
    (((editorOnInputFind c4state ['q', 'w'] 119).bind
        (fun s => editorOnInputFind s ['q', 'w'] ARROW_DOWN)).map
      (fun s => (s.cy, s.cx, s.lastMatch)) = some (2, 0, 2)) ∧
    (∀ (st : editorConfig) (query : List Char) (key : Int),
      st.savedHighlights = none →
      st.numrows = Int.ofNat st.rows.length →
      -1 ≤ st.lastMatch → st.lastMatch < st.numrows →
      (∀ idx : Nat, strIndex (st.rows.getD idx emptyRow).render query = none) →
      ∃ st', editorOnInputFind st query key = some st' ∧
        st'.cx = st.cx ∧ st'.cy = st.cy ∧ st'.rows = st.rows) :=
  ⟨by decide, by decide,
    fun st query key h1 h2 h3 h4 h5 => editorOnInputFind_no_match st query key h1 h2 h3 h4 h5⟩

/-- Witness for C4's quantified no-match clause at an empty buffer. -/
theorem c4_search_witness :
    let st : editorConfig :=
      { screenrows := 24, screencols := 80, cx := 0, cy := 0, rx := 0,
        rows := [], dirty := false, numrows := 0,
        rowOffset := 0, colOffset := 0, filename := [], statusMsg := .empty,
        lastMatch := -1, direction := 1, savedHighlightIndex := 0, savedHighlights := none }
    ∃ st', editorOnInputFind st ['z'] 120 = some st' ∧
      st'.cx = st.cx ∧ st'.cy = st.cy ∧ st'.rows = st.rows :=
  c4_search_step.2.2 _ ['z'] 120 rfl rfl (by decide) (by decide) (fun idx => rfl)

end Kilo
